import Mathlib

/-!
Shallow embedding of the PredictiveClickTracker core
(`src/data_generator.py` and `src/model.py`) and proofs of the
specification claims about it.

External library calls (numpy's global PRNG, Faker's timestamp sampler,
sklearn's LabelEncoder / train_test_split / RandomForestClassifier) are
modelled by executable Lean definitions that capture the behaviour the
libraries document; each such model carries a doc comment explaining
exactly which documented behaviour it captures and which internals it
abstracts.  Everything written in the repository itself is translated
directly from the Python source.
-/

namespace ClickTracker

/-! ## Categorical value types (`data_generator.py`, lines 41-46) -/

inductive Device
| desktop
| mobile
| tablet
deriving DecidableEq, Repr, Inhabited

inductive Browser
| chrome
| firefox
| safari
| edge
deriving DecidableEq, Repr, Inhabited

inductive Referrer
| direct
| search
| social
| email
deriving DecidableEq, Repr, Inhabited

/-- Alphabetical rank of a device string, matching how `np.unique` (inside
sklearn's `LabelEncoder`) orders the underlying strings. -/
def Device.rank : Device → Nat
| .desktop => 0
| .mobile => 1
| .tablet => 2

/-- Alphabetical rank of a browser string (chrome < edge < firefox < safari). -/
def Browser.rank : Browser → Nat
| .chrome => 0
| .edge => 1
| .firefox => 2
| .safari => 3

/-- Alphabetical rank of a referrer string (direct < email < search < social). -/
def Referrer.rank : Referrer → Nat
| .direct => 0
| .email => 1
| .search => 2
| .social => 3

instance : LT Device := ⟨fun a b => Device.rank a < Device.rank b⟩

instance (a b : Device) : Decidable (a < b) :=
inferInstanceAs (Decidable (Device.rank a < Device.rank b))

instance : LT Browser := ⟨fun a b => Browser.rank a < Browser.rank b⟩

instance (a b : Browser) : Decidable (a < b) :=
inferInstanceAs (Decidable (Browser.rank a < Browser.rank b))

instance : LT Referrer := ⟨fun a b => Referrer.rank a < Referrer.rank b⟩

instance (a b : Referrer) : Decidable (a < b) :=
inferInstanceAs (Decidable (Referrer.rank a < Referrer.rank b))

/-! ## Model of the numpy global PRNG

`generate_data` begins with `np.random.seed(42)` and then draws every
numeric column from numpy's global generator, so each column is a pure
function of the seed and of how many draws preceded it.  The generator
state is modelled as a `Nat` advanced by a linear-congruential step; the
individual samplers are deterministic stand-ins that keep the properties
the claims depend on (non-negativity of exponential draws, values drawn
from the declared vocabularies, a Bernoulli draw that is surely `false`
at probability zero). -/

/-- One step of the modelled numpy PRNG state. -/
def npStep (s : Nat) : Nat := (1103515245 * s + 12345) % 2147483648

/-- A uniform draw in `[0, 1)` together with the advanced state. -/
def npUnit (s : Nat) : ℚ × Nat :=
(((npStep s % 1000000 : Nat) : ℚ) / 1000000, npStep s)

/-- Model of `np.random.exponential(scale)`: a non-negative draw whose
exact value is PRNG-internal (here `scale` times a uniform variate). -/
def npExponential (scale : ℚ) (s : Nat) : ℚ × Nat :=
(scale * (npUnit s).1, (npUnit s).2)

/-- Model of `np.random.choice([0, 1], p=[0.7, 0.3])` for `exited_screen`. -/
def npExit (s : Nat) : Bool × Nat :=
(decide ((7 : ℚ)/10 ≤ (npUnit s).1), (npUnit s).2)

/-- Model of `np.random.poisson(lam=2)` for `search_count`: a non-negative
integer draw (the exact value is PRNG-internal). -/
def npPoisson (s : Nat) : Nat × Nat :=
((⌊(npUnit s).1 * 5⌋).toNat, (npUnit s).2)

/-- The e-commerce search-term vocabulary (`data_generator.py`, lines 22-33). -/
def search_terms : List String :=
["wireless earbuds", "laptop", "smartphone", "smart watch", "tablet",
 "running shoes", "winter jacket", "yoga pants", "dress", "jeans",
 "coffee maker", "air fryer", "bedding set", "throw pillows", "curtains",
 "face moisturizer", "shampoo", "makeup palette", "perfume", "skincare set",
 "yoga mat", "dumbbells", "camping tent", "hiking boots", "water bottle"]

/-- Model of `np.random.choice(search_terms)`: a uniform pick from the
25-term vocabulary. -/
def npSearchTerm (s : Nat) : String × Nat :=
(search_terms.getD (min 24 (⌊(npUnit s).1 * 25⌋).toNat) "", (npUnit s).2)

/-- Model of `np.random.choice(['desktop','mobile','tablet'], p=[0.6,0.3,0.1])`. -/
def npDevice (s : Nat) : Device × Nat :=
(if (npUnit s).1 < (6 : ℚ)/10 then .desktop
 else if (npUnit s).1 < (9 : ℚ)/10 then .mobile
 else .tablet, (npUnit s).2)

/-- Model of `np.random.choice(['chrome','firefox','safari','edge'], p=[0.5,0.2,0.2,0.1])`. -/
def npBrowser (s : Nat) : Browser × Nat :=
(if (npUnit s).1 < (5 : ℚ)/10 then .chrome
 else if (npUnit s).1 < (7 : ℚ)/10 then .firefox
 else if (npUnit s).1 < (9 : ℚ)/10 then .safari
 else .edge, (npUnit s).2)

/-- Model of `np.random.choice(['direct','search','social','email'], p=[0.4,0.3,0.2,0.1])`. -/
def npReferrer (s : Nat) : Referrer × Nat :=
(if (npUnit s).1 < (4 : ℚ)/10 then .direct
 else if (npUnit s).1 < (7 : ℚ)/10 then .search
 else if (npUnit s).1 < (9 : ℚ)/10 then .social
 else .email, (npUnit s).2)

/-- Draw `k` samples with a stateful sampler, threading the PRNG state. -/
def drawN (draw : Nat → α × Nat) : Nat → Nat → List α × Nat
| 0, s => ([], s)
| Nat.succ k, s =>
  let p := draw s
  let rest := drawN draw k p.2
  (p.1 :: rest.1, rest.2)

/-- Model of `np.random.binomial(n=1, p=probs)`: one Bernoulli draw per
probability (the uniform variate is compared against the probability,
so probability `0` surely yields `false`). -/
def drawBinomials : List ℚ → Nat → List Bool × Nat
| [], s => ([], s)
| p :: ps, s =>
  let u := npUnit s
  let rest := drawBinomials ps u.2
  ((decide (u.1 < p)) :: rest.1, rest.2)

/-! ## Model of Faker timestamps

`generate_data` samples `timestamp` with
`self.fake.date_time_between(start_date=end_date - 30 days, end_date=datetime.now())`.
Two points are faithful to the libraries involved and matter for the
claims: the draw always lies inside the 30-day window ending at the
wall-clock instant `now`, and Faker draws from Python's global `random`
generator, which `np.random.seed(42)` does *not* seed — so the draw
also depends on an ambient RNG state `f0` that the repository never
fixes.  Timestamps are modelled in whole seconds. -/

/-- One step of the modelled ambient Python (Faker) PRNG state. -/
def fakerStep (s : Nat) : Nat := (48271 * s + 11) % 2147483647

/-- Model of `Faker.date_time_between(start, stop)`: a draw inside
`[start, stop]` driven by the ambient Python PRNG state. -/
def fakerBetween (start stop : Int) (s : Nat) : Int × Nat :=
(start + (fakerStep s : Int) % (stop - start + 1), fakerStep s)

/-- Seconds in 30 days, the width of the timestamp window. -/
def windowSeconds : Int := 30 * 86400

/-! ## The generated table (`data_generator.py`, lines 35-75) -/

/-- One row of the generated table (one Interaction Record). -/
structure Row where
  timestamp : Int
  time_on_screen : ℚ
  exited_screen : Bool
  search_count : Nat
  search_term : String
  device_type : Device
  browser : Browser
  referrer : Referrer
  clicked : Bool
deriving DecidableEq, Repr, Inhabited

/-- A row with the timestamp column removed (used to state which columns
depend on the wall clock). -/
structure CoreRow where
  time_on_screen : ℚ
  exited_screen : Bool
  search_count : Nat
  search_term : String
  device_type : Device
  browser : Browser
  referrer : Referrer
  clicked : Bool
deriving DecidableEq, Repr, Inhabited

/-- Forget the timestamp column of a row. -/
def Row.core (r : Row) : CoreRow :=
⟨r.time_on_screen, r.exited_screen, r.search_count, r.search_term,
 r.device_type, r.browser, r.referrer, r.clicked⟩

/-- `base_prob = 0.3` (`data_generator.py`, line 50). -/
def base_prob : ℚ := 3/10

/-- `device_effect = {'desktop': 0.1, 'mobile': -0.05, 'tablet': 0}` (line 51). -/
def device_effect : Device → ℚ
| .desktop => 1/10
| .mobile => -(1/20)
| .tablet => 0

/-- `browser_effect = {'chrome': 0.05, 'firefox': 0, 'safari': 0, 'edge': -0.05}` (line 52). -/
def browser_effect : Browser → ℚ
| .chrome => 1/20
| .firefox => 0
| .safari => 0
| .edge => -(1/20)

/-- The per-row click probability of `data_generator.py`, lines 54-67:
`0` when the user exited, otherwise
`base_prob + device_effect[dev] + browser_effect[br] + min(0.2, ts/1000)`. -/
def click_prob (dev : Device) (br : Browser) (ex : Bool) (ts : ℚ) : ℚ :=
if ex then 0
else base_prob + device_effect dev + browser_effect br + min (1/5) (ts / 1000)

/-- `np.clip(p, 0, 1)` (line 69). -/
def clip01 (p : ℚ) : ℚ := min 1 (max 0 p)

/-- The click-probability formula exactly as §4.1 of the spec words it:
`p = base_prob(0.3) + device_effect[device] + browser_effect[browser]
   + min(0.2, time_on_screen/1000)`, with the stated effect tables, and
`p` forced to `0` when `exited_screen` is true (strict variant). -/
def spec_click_prob (dev : Device) (br : Browser) (ex : Bool) (ts : ℚ) : ℚ :=
if ex then 0
else
  (0.3 : ℚ)
  + (match dev with | .desktop => (0.10 : ℚ) | .mobile => -(0.05 : ℚ) | .tablet => 0)
  + (match br with | .chrome => (0.05 : ℚ) | .firefox => 0 | .safari => 0 | .edge => -(0.05 : ℚ))
  + min (0.2 : ℚ) (ts / 1000)

/-- Pointwise combination of the four attribute columns into the
`click_probs` array (`data_generator.py`, lines 54-67). -/
def zipWith4 (f : α → β → γ → δ → ε) : List α → List β → List γ → List δ → List ε
| a :: as', b :: bs, c :: cs, d :: ds => f a b c d :: zipWith4 f as' bs cs ds
| _, _, _, _ => []

/-- numpy PRNG state right after `np.random.seed(42)`. -/
def np_s0 : Nat := 42

def times_draw (n : Nat) : List ℚ × Nat := drawN (npExponential 300) n np_s0

/-- The `time_on_screen` column. -/
def times_col (n : Nat) : List ℚ := (times_draw n).1

def exits_draw (n : Nat) : List Bool × Nat := drawN npExit n (times_draw n).2

/-- The `exited_screen` column. -/
def exits_col (n : Nat) : List Bool := (exits_draw n).1

def counts_draw (n : Nat) : List Nat × Nat := drawN npPoisson n (exits_draw n).2

/-- The `search_count` column. -/
def counts_col (n : Nat) : List Nat := (counts_draw n).1

def terms_draw (n : Nat) : List String × Nat := drawN npSearchTerm n (counts_draw n).2

/-- The `search_term` column. -/
def terms_col (n : Nat) : List String := (terms_draw n).1

def devices_draw (n : Nat) : List Device × Nat := drawN npDevice n (terms_draw n).2

/-- The `device_type` column. -/
def devices_col (n : Nat) : List Device := (devices_draw n).1

def browsers_draw (n : Nat) : List Browser × Nat := drawN npBrowser n (devices_draw n).2

/-- The `browser` column. -/
def browsers_col (n : Nat) : List Browser := (browsers_draw n).1

def referrers_draw (n : Nat) : List Referrer × Nat := drawN npReferrer n (browsers_draw n).2

/-- The `referrer` column. -/
def referrers_col (n : Nat) : List Referrer := (referrers_draw n).1

/-- The `click_probs` array (`data_generator.py`, lines 54-67). -/
def probs_col (n : Nat) : List ℚ :=
zipWith4 click_prob (devices_col n) (browsers_col n) (exits_col n) (times_col n)

/-- `data['clicked'] = np.random.binomial(n=1, p=np.clip(click_probs, 0, 1))`
(line 69): the probabilities are clipped to `[0,1]` and then each row's
label is drawn. -/
def clicked_draw (n : Nat) : List Bool × Nat :=
drawBinomials ((probs_col n).map clip01) (referrers_draw n).2

/-- The raw `clicked` column, before the post-hoc invariant pass. -/
def clicked_col (n : Nat) : List Bool := (clicked_draw n).1

/-- The `timestamp` column: `n` Faker draws from the 30-day window ending
at the wall-clock instant `now`, driven by the ambient (unseeded) Python
PRNG state `f0` (`data_generator.py`, lines 16-19). -/
def timestamps_col (n : Nat) (now : Int) (f0 : Nat) : List Int :=
(drawN (fakerBetween (now - windowSeconds) now) n f0).1

/-- Zip the eight wall-clock-independent columns into core rows (the
`data` dict of `data_generator.py`, lines 35-47 and 69, minus `timestamp`). -/
def zipCore : List ℚ → List Bool → List Nat → List String →
    List Device → List Browser → List Referrer → List Bool → List CoreRow
| t :: ts, e :: es, c :: cs, q :: qs, d :: ds, b :: bs, r :: rs, k :: ks =>
  ⟨t, e, c, q, d, b, r, k⟩ :: zipCore ts es cs qs ds bs rs ks
| _, _, _, _, _, _, _, _ => []

/-- Attach the timestamp column to the core rows (building the DataFrame). -/
def attachTs : List Int → List CoreRow → List Row
| t :: ts, c :: cs =>
  ⟨t, c.time_on_screen, c.exited_screen, c.search_count, c.search_term,
   c.device_type, c.browser, c.referrer, c.clicked⟩ :: attachTs ts cs
| _, _ => []

/-- All wall-clock-independent columns, zipped. -/
def core_cols (n : Nat) : List CoreRow :=
zipCore (times_col n) (exits_col n) (counts_col n) (terms_col n)
  (devices_col n) (browsers_col n) (referrers_col n) (clicked_col n)

/-- The table right before the post-hoc invariant pass (the DataFrame of
`data_generator.py`, line 72). -/
def generate_raw (n : Nat) (now : Int) (f0 : Nat) : List Row :=
attachTs (timestamps_col n now f0) (core_cols n)

/-- One row of `df.loc[df['exited_screen'] == 1, 'clicked'] = 0`. -/
def enforceRow (r : Row) : Row :=
if r.exited_screen then { r with clicked := false } else r

/-- The post-hoc pass `df.loc[df['exited_screen'] == 1, 'clicked'] = 0`
(`data_generator.py`, line 73). -/
def enforce_click_invariant (rows : List Row) : List Row :=
rows.map enforceRow

/-- `DataGenerator.generate_data` (`data_generator.py`, lines 11-75), as a
function of the requested size `n`, the wall-clock instant `now` (seconds)
read by `datetime.now()`, and the ambient unseeded Python PRNG state `f0`
consumed by Faker. -/
def generate_data (n : Nat) (now : Int) (f0 : Nat) : List Row :=
enforce_click_invariant (generate_raw n now f0)

/-! ## Feature encoder and click model (`src/model.py`)

The Python class `ClickPredictionModel` holds mutable state
(`label_encoders`, the fitted forest, `feature_importance`); it is
embedded with explicit state passing: every method takes the model state
and returns the updated state together with the method's result.
Exceptions become `Except`. -/

/-- The error outcomes of the embedded methods: `unseenCategory` is the
`ValueError` sklearn's `LabelEncoder.transform` raises on a value outside
its fitted vocabulary, `notFitted` is sklearn's `NotFittedError` from
`predict_proba` before any `fit`, `valueError` is the `ValueError` that
`train_test_split` raises when a split would be empty. -/
inductive MLError
| unseenCategory
| notFitted
| valueError
deriving DecidableEq, Repr

/-- Insert into a sorted-without-duplicates list, keeping it sorted. -/
def sortedInsert [DecidableEq α] [LT α] [(a b : α) → Decidable (a < b)]
    (x : α) : List α → List α
| [] => [x]
| y :: ys => if x = y then y :: ys else if x < y then x :: y :: ys else y :: sortedInsert x ys

/-- Model of `np.unique` as used by sklearn's `LabelEncoder.fit`: the
sorted list of distinct values of the column. -/
def np_unique [DecidableEq α] [LT α] [(a b : α) → Decidable (a < b)]
    (xs : List α) : List α :=
xs.foldr sortedInsert []

/-- Model of sklearn's `LabelEncoder.transform` with fitted classes
`vocab`: each value is mapped to its code (its index among the fitted
classes), and a value outside the fitted vocabulary raises the
unseen-category `ValueError`. -/
def transformAll [DecidableEq α] [LT α] [(a b : α) → Decidable (a < b)]
    (vocab : List α) : List α → Except MLError (List Nat)
| [] => .ok []
| v :: vs =>
  if v ∈ vocab then
    match transformAll vocab vs with
    | .ok cs => .ok (vocab.indexOf v :: cs)
    | .error e => .error e
  else .error .unseenCategory

/-- One categorical column of `prepare_features` (`model.py`, lines 22-27):
if no encoder exists for the column, fit a fresh `LabelEncoder` on the
column (`fit_transform`, which cannot fail); otherwise apply the existing
encoder (`transform`, which fails on unseen values).  Returns the
column's (possibly freshly fitted) vocabulary and the codes or the error. -/
def encodeCol [DecidableEq α] [LT α] [(a b : α) → Decidable (a < b)]
    (fitted : Option (List α)) (xs : List α) : List α × Except MLError (List Nat) :=
match fitted with
| none => (np_unique xs, .ok (xs.map (fun v => (np_unique xs).indexOf v)))
| some vocab => (vocab, transformAll vocab xs)

/-- The `label_encoders` dict: one optional fitted vocabulary per
categorical column (`model.py`, line 10 and lines 21-27). -/
structure Encoders where
  search_term : Option (List String)
  device_type : Option (List Device)
  browser : Option (List Browser)
  referrer : Option (List Referrer)
deriving DecidableEq, Repr

/-- The encoder state of a freshly constructed model: nothing fitted. -/
def initEncoders : Encoders := ⟨none, none, none, none⟩

/-- `X['timestamp'].dt.hour` (`model.py`, line 17), for an epoch-seconds
timestamp. -/
def hour_of (ts : Int) : Nat := ((ts.emod 86400).toNat) / 3600

/-- `X['timestamp'].dt.dayofweek` (`model.py`, line 18): pandas counts
Monday as 0 and the epoch day 1970-01-01 was a Thursday (= 3). -/
def dow_of (ts : Int) : Nat := (((ts.ediv 86400) + 3).emod 7).toNat

/-- One row of the numeric feature table `X[features]` (`model.py`,
lines 29-33), in the column order of the source. -/
structure FeatRow where
  time_on_screen : ℚ
  exited_screen : Bool
  search_count : Nat
  hour : Nat
  day_of_week : Nat
  search_term : Nat
  device_type : Nat
  browser : Nat
  referrer : Nat
deriving DecidableEq, Repr, Inhabited

/-- Zip the raw rows with the four encoded categorical columns into the
feature table. -/
def buildFeatRows : List Row → List Nat → List Nat → List Nat → List Nat → List FeatRow
| r :: rs, a :: as', b :: bs, c :: cs, d :: ds =>
  ⟨r.time_on_screen, r.exited_screen, r.search_count,
   hour_of r.timestamp, dow_of r.timestamp, a, b, c, d⟩
    :: buildFeatRows rs as' bs cs ds
| _, _, _, _, _ => []

/-- `ClickPredictionModel.prepare_features` (`model.py`, lines 13-33):
derives `hour` and `day_of_week` from the timestamp, then encodes the
four categorical columns in source order (`search_term`, `device_type`,
`browser`, `referrer`), fitting an encoder where none exists and applying
the existing one otherwise.  An unseen value raises out of the loop, so
the columns before it keep their (possibly freshly fitted) encoders —
the Python `self.label_encoders` mutation that already happened. -/
def prepare_features (enc : Encoders) (df : List Row) :
    Encoders × Except MLError (List FeatRow) :=
match encodeCol enc.search_term (df.map Row.search_term) with
| (v1, .error e) => ({ enc with search_term := some v1 }, .error e)
| (v1, .ok c1) =>
  match encodeCol enc.device_type (df.map Row.device_type) with
  | (v2, .error e) =>
    ({ enc with search_term := some v1, device_type := some v2 }, .error e)
  | (v2, .ok c2) =>
    match encodeCol enc.browser (df.map Row.browser) with
    | (v3, .error e) =>
      ({ enc with
          search_term := some v1
          device_type := some v2
          browser := some v3 }, .error e)
    | (v3, .ok c3) =>
      match encodeCol enc.referrer (df.map Row.referrer) with
      | (v4, .error e) =>
        (⟨some v1, some v2, some v3, some v4⟩, .error e)
      | (v4, .ok c4) =>
        (⟨some v1, some v2, some v3, some v4⟩,
         .ok (buildFeatRows df c1 c2 c3 c4))

/-- Number of held-out rows: model of sklearn's `train_test_split` with
`test_size=0.2`, which takes `ceil(0.2 * n)` test samples. -/
def n_test_of (n : Nat) : Nat := (n + 4) / 5

/-- Model of `train_test_split(X, y, test_size=0.2, random_state=42)`
(`model.py`, lines 39-41): a deterministic split into 80% training and
20% held-out rows driven by the fixed seed.  sklearn shuffles with the
seeded PRNG and then slices; the seeded permutation's exact values are
library internals and are modelled by the identity permutation, which
keeps every property the claims depend on (determinism, split sizes,
pairing of `X` and `y` rows).  It raises `ValueError` when either side
of the split would be empty. -/
def train_test_split (X : List FeatRow) (y : List Bool) :
    Except MLError ((List FeatRow × List FeatRow) × (List Bool × List Bool)) :=
let n := y.length
if n - n_test_of n = 0 then .error .valueError
else
  .ok ((X.drop (n_test_of n), X.take (n_test_of n)),
       (y.drop (n_test_of n), y.take (n_test_of n)))

/-- The fitted `RandomForestClassifier` (`model.py`, line 9): the fitted
estimator is a function of the training split (the seed is the fixed
constant 42), modelled by retaining the training split itself. -/
structure Forest where
  Xtr : List FeatRow
  ytr : List Bool
deriving DecidableEq, Repr

/-- The majority training label.  sklearn's learned decision function is
library-internal; it is modelled as the training-set majority class,
which coincides with the real classifier's output whenever the training
labels are single-class — the only case in which any claim depends on a
concrete predicted value. -/
def Forest.majority (f : Forest) : Bool :=
decide (f.ytr.length < 2 * f.ytr.count true)

/-- Model of the fitted classifier's `predict` on one row. -/
def Forest.predictOne (f : Forest) (_x : FeatRow) : Bool := f.majority

/-- Model of `predict_proba(X)[:, 1]` on one row: the positive-class
probability (a rational in `[0,1]`). -/
def Forest.probaOne (f : Forest) (_x : FeatRow) : ℚ :=
if f.majority then 1 else 0

/-- `self.model.score(X_test, y_test)` (`model.py`, line 51): plain
classification accuracy, the fraction of held-out rows whose predicted
label matches the true label. -/
def Forest.score (f : Forest) (Xte : List FeatRow) (yte : List Bool) : ℚ :=
(((Xte.zip yte).countP (fun p => f.predictOne p.1 == p.2) : ℚ)) / ((yte.length : ℚ))

/-- Whether the training labels contain a single class only. -/
def single_class (y : List Bool) : Bool :=
!(decide (true ∈ y) && decide (false ∈ y))

/-- Model of `self.model.feature_importances_` (`model.py`, line 48),
following sklearn's documented contract: the impurity-based importances
are non-negative and normalised to sum to 1, *unless* every tree is a
single root node — which is what fitting single-class labels produces —
in which case the array is all zeros.  The concrete non-degenerate
values are tree-construction internals and are modelled by the uniform
normalised vector. -/
def feature_importances (ytr : List Bool) : List ℚ :=
if single_class ytr then List.replicate 9 0 else List.replicate 9 (1/9)

/-- `X.columns` of the feature table (`model.py`, lines 30-31). -/
def feature_names : List String :=
["time_on_screen", "exited_screen", "search_count", "hour", "day_of_week",
 "search_term", "device_type", "browser", "referrer"]

/-- Descending order on importance entries, for
`sort_values('importance', ascending=False)`. -/
def impOrder (a b : String × ℚ) : Prop := b.2 ≤ a.2

instance : DecidableRel impOrder :=
fun a b => inferInstanceAs (Decidable (b.2 ≤ a.2))

instance : IsTotal (String × ℚ) impOrder := ⟨fun a b => le_total b.2 a.2⟩

instance : IsTrans (String × ℚ) impOrder := ⟨fun _ _ _ h1 h2 => le_trans h2 h1⟩

/-- `.sort_values('importance', ascending=False)` (`model.py`, line 49). -/
def sort_desc (l : List (String × ℚ)) : List (String × ℚ) :=
List.insertionSort impOrder l

/-- The feature-importance table built by `train` (`model.py`,
lines 46-49): feature names paired with the fitted importances, sorted
by descending importance. -/
def importance_table (ytr : List Bool) : List (String × ℚ) :=
sort_desc (feature_names.zip (feature_importances ytr))

/-- The state of a `ClickPredictionModel` instance (`model.py`,
lines 8-11): the per-column encoders, the (possibly unfitted) forest and
the feature-importance table. -/
structure ClickPredictionModel where
  label_encoders : Encoders
  model : Option Forest
  feature_importance : Option (List (String × ℚ))
deriving DecidableEq, Repr

/-- `ClickPredictionModel.__init__`: nothing fitted yet. -/
def initModel : ClickPredictionModel := ⟨initEncoders, none, none⟩

/-- `ClickPredictionModel.train` (`model.py`, lines 35-51): prepare the
features (mutating encoders), split 80/20 with the fixed seed, fit the
forest on the training split, rebuild the feature-importance table and
return the held-out accuracy.  Errors out of `prepare_features` or the
split propagate, keeping the encoder mutations already made. -/
def train (m : ClickPredictionModel) (df : List Row) : ClickPredictionModel × Except MLError ℚ :=
match prepare_features m.label_encoders df with
| (enc', .error e) => ({ m with label_encoders := enc' }, .error e)
| (enc', .ok X) =>
  match train_test_split X (df.map Row.clicked) with
  | .error e => ({ m with label_encoders := enc' }, .error e)
  | .ok ((Xtr, Xte), (ytr, yte)) =>
    ({ label_encoders := enc',
       model := some ⟨Xtr, ytr⟩,
       feature_importance := some (importance_table ytr) },
     .ok (Forest.score ⟨Xtr, ytr⟩ Xte yte))

/-- `ClickPredictionModel.predict` (`model.py`, lines 53-55): prepare the
features (mutating encoders), then `predict_proba` — which raises the
not-fitted error when no `fit` has happened — and return the per-row
positive-class probabilities. -/
def predict (m : ClickPredictionModel) (df : List Row) : ClickPredictionModel × Except MLError (List ℚ) :=
match prepare_features m.label_encoders df with
| (enc', .error e) => ({ m with label_encoders := enc' }, .error e)
| (enc', .ok X) =>
  match m.model with
  | none => ({ m with label_encoders := enc' }, .error .notFitted)
  | some f => ({ m with label_encoders := enc' }, .ok (X.map f.probaOne))

/-! ## Lemmas about the generator -/

theorem drawN_length (draw : Nat → α × Nat) (k s : Nat) :
    ((drawN draw k s).1).length = k := by
  induction k generalizing s with
  | zero => rfl
  | succ k ih => simp [drawN, ih]

theorem drawN_forall (draw : Nat → α × Nat) (P : α → Prop)
    (hP : ∀ s, P (draw s).1) (k s : Nat) :
    ∀ x ∈ (drawN draw k s).1, P x := by
  induction k generalizing s with
  | zero => intro x hx; simp [drawN] at hx
  | succ k ih =>
    intro x hx
    simp only [drawN, List.mem_cons] at hx
    rcases hx with h | h
    · exact h ▸ hP s
    · exact ih _ x h

theorem drawBinomials_length (ps : List ℚ) (s : Nat) :
    ((drawBinomials ps s).1).length = ps.length := by
  induction ps generalizing s with
  | nil => rfl
  | cons p ps ih => simp [drawBinomials, ih]

theorem fakerBetween_bounds (start stop : Int) (s : Nat) (h : start ≤ stop) :
    start ≤ (fakerBetween start stop s).1 ∧ (fakerBetween start stop s).1 ≤ stop := by
  have hpos : (0 : Int) < stop - start + 1 := by omega
  constructor
  · have := Int.emod_nonneg (fakerStep s : Int) (by omega : (stop - start + 1 : Int) ≠ 0)
    simp only [fakerBetween]
    omega
  · have := Int.emod_lt_of_pos (fakerStep s : Int) hpos
    simp only [fakerBetween]
    omega

theorem zipWith4_length (f : α → β → γ → δ → ε) (n : Nat) :
    ∀ (as' : List α) (bs : List β) (cs : List γ) (ds : List δ),
      as'.length = n → bs.length = n → cs.length = n → ds.length = n →
      (zipWith4 f as' bs cs ds).length = n := by
  induction n with
  | zero =>
    intro as' bs cs ds ha hb hc hd
    rw [List.length_eq_zero] at ha hb hc hd
    subst ha; subst hb; subst hc; subst hd
    rfl
  | succ n ih =>
    intro as' bs cs ds ha hb hc hd
    cases as' with
    | nil => simp at ha
    | cons a as' =>
      cases bs with
      | nil => simp at hb
      | cons b bs =>
        cases cs with
        | nil => simp at hc
        | cons c cs =>
          cases ds with
          | nil => simp at hd
          | cons d ds =>
            simp only [List.length_cons, Nat.succ.injEq] at ha hb hc hd
            simp only [zipWith4, List.length_cons]
            rw [ih as' bs cs ds ha hb hc hd]

theorem zipWith4_mem (f : α → β → γ → δ → ε) :
    ∀ (as' : List α) (bs : List β) (cs : List γ) (ds : List δ) (x : ε),
      x ∈ zipWith4 f as' bs cs ds →
      ∃ a b c d, a ∈ as' ∧ b ∈ bs ∧ c ∈ cs ∧ d ∈ ds ∧ x = f a b c d := by
  intro as'
  induction as' with
  | nil => intro bs cs ds x hx; simp [zipWith4] at hx
  | cons a as' ih =>
    intro bs cs ds x hx
    cases bs with
    | nil => simp [zipWith4] at hx
    | cons b bs =>
      cases cs with
      | nil => simp [zipWith4] at hx
      | cons c cs =>
        cases ds with
        | nil => simp [zipWith4] at hx
        | cons d ds =>
          simp only [zipWith4, List.mem_cons] at hx
          rcases hx with h | h
          · exact ⟨a, b, c, d, by simp, by simp, by simp, by simp, h⟩
          · rcases ih bs cs ds x h with ⟨a', b', c', d', ha', hb', hc', hd', hx'⟩
            exact ⟨a', b', c', d', List.mem_cons_of_mem _ ha',
              List.mem_cons_of_mem _ hb', List.mem_cons_of_mem _ hc',
              List.mem_cons_of_mem _ hd', hx'⟩

theorem zipCore_length (n : Nat) :
    ∀ (ts : List ℚ) (es : List Bool) (cs : List Nat) (qs : List String)
      (ds : List Device) (bs : List Browser) (rs : List Referrer) (ks : List Bool),
      ts.length = n → es.length = n → cs.length = n → qs.length = n →
      ds.length = n → bs.length = n → rs.length = n → ks.length = n →
      (zipCore ts es cs qs ds bs rs ks).length = n := by
  induction n with
  | zero =>
    intro ts es cs qs ds bs rs ks h1 h2 h3 h4 h5 h6 h7 h8
    rw [List.length_eq_zero] at h1 h2 h3 h4 h5 h6 h7 h8
    subst h1; subst h2; subst h3; subst h4; subst h5; subst h6; subst h7; subst h8
    rfl
  | succ n ih =>
    intro ts es cs qs ds bs rs ks h1 h2 h3 h4 h5 h6 h7 h8
    cases ts with | nil => simp at h1 | cons t ts =>
    cases es with | nil => simp at h2 | cons e es =>
    cases cs with | nil => simp at h3 | cons c cs =>
    cases qs with | nil => simp at h4 | cons q qs =>
    cases ds with | nil => simp at h5 | cons d ds =>
    cases bs with | nil => simp at h6 | cons b bs =>
    cases rs with | nil => simp at h7 | cons r rs =>
    cases ks with | nil => simp at h8 | cons k ks =>
    simp only [List.length_cons, Nat.succ.injEq] at h1 h2 h3 h4 h5 h6 h7 h8
    simp only [zipCore, List.length_cons]
    rw [ih ts es cs qs ds bs rs ks h1 h2 h3 h4 h5 h6 h7 h8]

theorem attachTs_length (ts : List Int) (cs : List CoreRow) :
    (attachTs ts cs).length = min ts.length cs.length := by
  induction ts generalizing cs with
  | nil => simp [attachTs]
  | cons t ts ih =>
    cases cs with
    | nil => simp [attachTs]
    | cons c cs => simp [attachTs, ih, Nat.succ_min_succ]

theorem attachTs_map_core (ts : List Int) (cs : List CoreRow) :
    (attachTs ts cs).map Row.core = cs.take ts.length := by
  induction ts generalizing cs with
  | nil => simp [attachTs]
  | cons t ts ih =>
    cases cs with
    | nil => simp [attachTs]
    | cons c cs => simp [attachTs, ih, Row.core]

theorem attachTs_map_timestamp (ts : List Int) (cs : List CoreRow) :
    (attachTs ts cs).map Row.timestamp = ts.take cs.length := by
  induction ts generalizing cs with
  | nil => simp [attachTs]
  | cons t ts ih =>
    cases cs with
    | nil => simp [attachTs]
    | cons c cs => simp [attachTs, ih]

theorem attachTs_mem_timestamp (ts : List Int) (cs : List CoreRow) (r : Row)
    (h : r ∈ attachTs ts cs) : r.timestamp ∈ ts := by
  induction ts generalizing cs with
  | nil => simp [attachTs] at h
  | cons t ts ih =>
    cases cs with
    | nil => simp [attachTs] at h
    | cons c cs =>
      simp only [attachTs, List.mem_cons] at h
      rcases h with h | h
      · subst h; simp
      · exact List.mem_cons_of_mem _ (ih cs h)

theorem enforceRow_timestamp (r : Row) : (enforceRow r).timestamp = r.timestamp := by
  unfold enforceRow; split <;> rfl

theorem enforce_invariant_holds (rows : List Row) :
    ∀ r ∈ enforce_click_invariant rows, r.exited_screen = true → r.clicked = false := by
  intro r hr hex
  rcases List.mem_map.1 hr with ⟨r₀, _, rfl⟩
  unfold enforceRow at hex ⊢
  by_cases h : r₀.exited_screen
  · simp [h]
  · rw [if_neg h] at hex
    exact absurd hex h

/-- The wall-clock-independent image of the post-hoc pass. -/
def enforceCore (c : CoreRow) : CoreRow :=
if c.exited_screen then { c with clicked := false } else c

theorem enforceRow_core (r : Row) : (enforceRow r).core = enforceCore r.core := by
  unfold enforceRow enforceCore Row.core
  by_cases h : r.exited_screen <;> simp [h]

/-- All per-column lengths of the wall-clock-independent columns. -/
theorem cols_length (n : Nat) :
    (times_col n).length = n ∧ (exits_col n).length = n ∧
    (counts_col n).length = n ∧ (terms_col n).length = n ∧
    (devices_col n).length = n ∧ (browsers_col n).length = n ∧
    (referrers_col n).length = n ∧ (clicked_col n).length = n := by
  refine ⟨?_, ?_, ?_, ?_, ?_, ?_, ?_, ?_⟩
  · exact drawN_length _ n _
  · exact drawN_length _ n _
  · exact drawN_length _ n _
  · exact drawN_length _ n _
  · exact drawN_length _ n _
  · exact drawN_length _ n _
  · exact drawN_length _ n _
  · unfold clicked_col clicked_draw
    rw [drawBinomials_length, List.length_map]
    unfold probs_col
    exact zipWith4_length _ n _ _ _ _ (drawN_length _ n _) (drawN_length _ n _)
      (drawN_length _ n _) (drawN_length _ n _)

theorem core_cols_length (n : Nat) : (core_cols n).length = n := by
  have h := cols_length n
  exact zipCore_length n _ _ _ _ _ _ _ _ h.1 h.2.1 h.2.2.1 h.2.2.2.1
    h.2.2.2.2.1 h.2.2.2.2.2.1 h.2.2.2.2.2.2.1 h.2.2.2.2.2.2.2

theorem timestamps_col_length (n : Nat) (now : Int) (f0 : Nat) :
    (timestamps_col n now f0).length = n := drawN_length _ n _

theorem generate_data_length (n : Nat) (now : Int) (f0 : Nat) :
    (generate_data n now f0).length = n := by
  unfold generate_data enforce_click_invariant generate_raw
  rw [List.length_map, attachTs_length, timestamps_col_length, core_cols_length]
  exact Nat.min_self n

theorem generate_map_timestamp (n : Nat) (now : Int) (f0 : Nat) :
    (generate_data n now f0).map Row.timestamp = timestamps_col n now f0 := by
  unfold generate_data enforce_click_invariant generate_raw
  rw [List.map_map]
  have : Row.timestamp ∘ enforceRow = Row.timestamp := by
    funext r; exact enforceRow_timestamp r
  rw [this, attachTs_map_timestamp, core_cols_length]
  exact List.take_of_length_le (le_of_eq (timestamps_col_length n now f0))

theorem npUnit_nonneg (s : Nat) : 0 ≤ (npUnit s).1 := by
  unfold npUnit
  exact div_nonneg (Nat.cast_nonneg _) (by norm_num)

theorem npExponential_nonneg (s : Nat) : 0 ≤ (npExponential 300 s).1 := by
  unfold npExponential
  exact mul_nonneg (by norm_num) (npUnit_nonneg s)

theorem times_col_nonneg (n : Nat) : ∀ t ∈ times_col n, 0 ≤ t :=
drawN_forall _ _ npExponential_nonneg n _

theorem clip01_nonneg (p : ℚ) : 0 ≤ clip01 p :=
le_min (by norm_num) (le_max_left 0 p)

theorem clip01_le_one (p : ℚ) : clip01 p ≤ 1 := min_le_left 1 _

theorem clip01_eq_self (p : ℚ) (h0 : 0 ≤ p) (h1 : p ≤ 1) : clip01 p = p := by
  unfold clip01
  rw [max_eq_right h0, min_eq_right h1]

theorem click_prob_false_bounds (dev : Device) (br : Browser) (ts : ℚ) (hts : 0 ≤ ts) :
    1/5 ≤ click_prob dev br false ts ∧ click_prob dev br false ts ≤ 13/20 := by
  have hmin0 : 0 ≤ min ((1 : ℚ)/5) (ts/1000) :=
    le_min (by norm_num) (div_nonneg hts (by norm_num))
  have hmin1 : min ((1 : ℚ)/5) (ts/1000) ≤ 1/5 := min_le_left _ _
  cases dev <;> cases br <;>
    simp only [click_prob, base_prob, device_effect, browser_effect,
      Bool.false_eq_true, if_false] <;>
    constructor <;> linarith

/-! ## Claim theorems about the generator -/

/-- Claim C1: for every `n > 0`, every row of the table returned by the
generator satisfies "exited_screen implies not clicked"; the generator
enforces this both by zeroing the click probability of exited rows in the
causal formula and by the final post-hoc pass that clears `clicked`
wherever `exited_screen` holds. -/
theorem claim1_exited_implies_not_clicked (n : Nat) (_hn : 0 < n) (now : Int) (f0 : Nat) :
    (∀ r ∈ generate_data n now f0, r.exited_screen = true → r.clicked = false)
    ∧ (∀ dev br (ts : ℚ), click_prob dev br true ts = 0)
    ∧ generate_data n now f0 = enforce_click_invariant (generate_raw n now f0) := by
  refine ⟨enforce_invariant_holds _, fun dev br ts => rfl, rfl⟩

/-- Witness for C1 at the concrete call `generate(3)`. -/
theorem claim1_witness :
    0 < 3 ∧ (∀ r ∈ generate_data 3 0 0, r.exited_screen = true → r.clicked = false) :=
⟨by decide, (claim1_exited_implies_not_clicked 3 (by decide) 0 0).1⟩

/-- Claim C2: the click probability driving each row's Bernoulli draw is
exactly the spec's formula
`0.3 + device_effect[device] + browser_effect[browser] + min(0.2, time_on_screen/1000)`,
with the spec's effect tables, forced to `0` on exited rows, and the
probabilities are clipped to `[0,1]` before the draw. -/
theorem claim2_click_probability_formula :
    (∀ dev br ex (ts : ℚ), click_prob dev br ex ts = spec_click_prob dev br ex ts)
    ∧ (∀ dev br (ts : ℚ), click_prob dev br true ts = 0)
    ∧ (∀ dev br (ts : ℚ), click_prob dev br false ts
        = base_prob + device_effect dev + browser_effect br + min (1/5) (ts / 1000))
    ∧ (∀ p : ℚ, 0 ≤ clip01 p ∧ clip01 p ≤ 1)
    ∧ (∀ n, clicked_col n
        = (drawBinomials ((probs_col n).map clip01) (referrers_draw n).2).1) := by
  refine ⟨?_, fun dev br ts => rfl, fun dev br ts => rfl,
    fun p => ⟨clip01_nonneg p, clip01_le_one p⟩, fun n => rfl⟩
  intro dev br ex ts
  cases ex <;> cases dev <;> cases br <;>
    simp only [click_prob, spec_click_prob, base_prob, device_effect, browser_effect,
      Bool.false_eq_true, Bool.true_eq_false, if_false, if_true] <;>
    norm_num

/-- Claim C10: for non-exited rows the pre-clip click probability already
lies in `[0.2, 0.65]` (so clipping to `[0,1]` never alters it, and every
non-exited row's probability is at least `0.2`); consequently every entry
of the generator's probability array is either `0` (exited row) or in
`[0.2, 0.65]` and fixed by the clip. -/
theorem claim10_nonexited_prob_bounds :
    (∀ dev br (ts : ℚ), 0 ≤ ts →
      1/5 ≤ click_prob dev br false ts ∧ click_prob dev br false ts ≤ 13/20
      ∧ clip01 (click_prob dev br false ts) = click_prob dev br false ts)
    ∧ (∀ n, ∀ t ∈ times_col n, 0 ≤ t)
    ∧ (∀ n, ∀ q ∈ probs_col n,
        q = 0 ∨ (1/5 ≤ q ∧ q ≤ 13/20 ∧ clip01 q = q)) := by
  have main : ∀ dev br (ts : ℚ), 0 ≤ ts →
      1/5 ≤ click_prob dev br false ts ∧ click_prob dev br false ts ≤ 13/20
      ∧ clip01 (click_prob dev br false ts) = click_prob dev br false ts := by
    intro dev br ts hts
    obtain ⟨h1, h2⟩ := click_prob_false_bounds dev br ts hts
    exact ⟨h1, h2, clip01_eq_self _ (by linarith) (by linarith)⟩
  refine ⟨main, fun n => times_col_nonneg n, ?_⟩
  intro n q hq
  obtain ⟨dev, br, ex, ts, _, _, hex, hts, rfl⟩ :=
    zipWith4_mem click_prob _ _ _ _ q hq
  cases ex with
  | true => exact Or.inl rfl
  | false => exact Or.inr (main dev br ts (times_col_nonneg n ts hts))

/-- Witness for C10 at time-on-screen `0` on a desktop/chrome row. -/
theorem claim10_witness :
    (0 : ℚ) ≤ 0 ∧ (1/5 ≤ click_prob Device.desktop Browser.chrome false 0
      ∧ click_prob Device.desktop Browser.chrome false 0 ≤ 13/20
      ∧ clip01 (click_prob Device.desktop Browser.chrome false 0)
          = click_prob Device.desktop Browser.chrome false 0) :=
⟨le_refl 0, claim10_nonexited_prob_bounds.1 Device.desktop Browser.chrome 0 (le_refl 0)⟩

/-- Claim C3 (amended): the wall-clock-independent part.  Every column
except `timestamp` is a pure function of `n` and the fixed seed — two
calls with the same `n` agree on all of them — the table has `n` rows,
and each timestamp lies in the 30-day window anchored at the call's
wall-clock instant.  The full tables, timestamp included, are *not*
call-to-call identical (see the counterexample). -/
theorem claim3_amended_determinism (n : Nat) (now now' : Int) (f0 f0' : Nat) :
    (generate_data n now f0).map Row.core = (generate_data n now' f0').map Row.core
    ∧ (generate_data n now f0).length = n
    ∧ (∀ r ∈ generate_data n now f0,
        now - windowSeconds ≤ r.timestamp ∧ r.timestamp ≤ now) := by
  have key : ∀ (nw : Int) (f : Nat),
      (generate_data n nw f).map Row.core = ((core_cols n).take n).map enforceCore := by
    intro nw f
    unfold generate_data enforce_click_invariant generate_raw
    rw [List.map_map]
    have hcomp : Row.core ∘ enforceRow = enforceCore ∘ Row.core := funext enforceRow_core
    rw [hcomp, ← List.map_map, attachTs_map_core, timestamps_col_length]
  refine ⟨(key now f0).trans (key now' f0').symm, generate_data_length n now f0, ?_⟩
  intro r hr
  rcases List.mem_map.1 hr with ⟨r₀, hr₀, rfl⟩
  rw [enforceRow_timestamp]
  have hts : r₀.timestamp ∈ timestamps_col n now f0 :=
    attachTs_mem_timestamp _ _ _ hr₀
  have hw : now - windowSeconds ≤ now := by
    have : (0 : Int) ≤ windowSeconds := by decide
    omega
  exact drawN_forall _ (fun x => now - windowSeconds ≤ x ∧ x ≤ now)
    (fun s => fakerBetween_bounds _ _ s hw) n f0 _ hts

/-- Witness for C3 (amended) at two concrete calls with `n = 2`. -/
theorem claim3_witness :
    (generate_data 2 0 0).map Row.core = (generate_data 2 5 7).map Row.core
    ∧ (generate_data 2 0 0).length = 2
    ∧ (∀ r ∈ generate_data 2 0 0,
        0 - windowSeconds ≤ r.timestamp ∧ r.timestamp ≤ 0) :=
claim3_amended_determinism 2 0 5 0 7

/-- Counterexample to C3 as stated: two calls with the same `n = 1` do
*not* produce bit-for-bit identical tables — the timestamp column changes
with the wall clock (`datetime.now()` anchors the window) and with the
ambient Python RNG state (Faker is never seeded by `np.random.seed(42)`). -/
theorem claim3_counterexample :
    generate_data 1 0 0 ≠ generate_data 1 8640000 0
    ∧ generate_data 1 0 0 ≠ generate_data 1 0 1 := by
  have d1 : timestamps_col 1 0 0 ≠ timestamps_col 1 8640000 0 := by decide
  have d2 : timestamps_col 1 0 0 ≠ timestamps_col 1 0 1 := by decide
  constructor
  · intro h
    exact d1 (by rw [← generate_map_timestamp, ← generate_map_timestamp, h])
  · intro h
    exact d2 (by rw [← generate_map_timestamp, ← generate_map_timestamp, h])

/-! ## Lemmas about the encoder -/

section EncoderLemmas

variable {α : Type} [DecidableEq α] [LT α] [(a b : α) → Decidable (a < b)]

theorem sortedInsert_mem (a x : α) (l : List α) :
    a ∈ sortedInsert x l ↔ a = x ∨ a ∈ l := by
  induction l with
  | nil => simp [sortedInsert]
  | cons y ys ih =>
    unfold sortedInsert
    by_cases h1 : x = y
    · subst h1
      simp only [List.mem_cons, if_true]
      constructor
      · intro h; exact Or.inr h
      · rintro (h | h)
        · exact Or.inl h
        · exact h
    · rw [if_neg h1]
      by_cases h2 : x < y
      · rw [if_pos h2]; simp
      · rw [if_neg h2]
        simp only [List.mem_cons, ih]
        tauto

theorem np_unique_mem (a : α) (xs : List α) : a ∈ np_unique xs ↔ a ∈ xs := by
  induction xs with
  | nil => simp [np_unique]
  | cons x xs ih =>
    unfold np_unique at ih ⊢
    rw [List.foldr_cons, sortedInsert_mem, ih, List.mem_cons]

theorem transformAll_ok_of_subset (vocab xs : List α) (h : ∀ v ∈ xs, v ∈ vocab) :
    transformAll vocab xs = .ok (xs.map fun v => vocab.indexOf v) := by
  induction xs with
  | nil => rfl
  | cons v vs ih =>
    unfold transformAll
    rw [if_pos (h v (by simp)), ih (fun w hw => h w (List.mem_cons_of_mem _ hw))]
    rfl

theorem transformAll_length (vocab xs : List α) (cs : List Nat)
    (h : transformAll vocab xs = .ok cs) : cs.length = xs.length := by
  induction xs generalizing cs with
  | nil =>
    unfold transformAll at h
    cases h
    rfl
  | cons v vs ih =>
    unfold transformAll at h
    by_cases hv : v ∈ vocab
    · rw [if_pos hv] at h
      cases hr : transformAll vocab vs with
      | ok cs' =>
        rw [hr] at h
        cases h
        simp [ih cs' hr]
      | error e => rw [hr] at h; cases h
    · rw [if_neg hv] at h; cases h

theorem transformAll_error_eq (vocab xs : List α) (e : MLError)
    (h : transformAll vocab xs = .error e) : e = .unseenCategory := by
  induction xs with
  | nil => cases h
  | cons v vs ih =>
    unfold transformAll at h
    by_cases hv : v ∈ vocab
    · rw [if_pos hv] at h
      cases hr : transformAll vocab vs with
      | ok cs' => rw [hr] at h; cases h
      | error e' =>
        rw [hr] at h
        cases h
        exact ih hr
    · rw [if_neg hv] at h
      cases h
      rfl

theorem transformAll_error_of_unseen (vocab xs : List α)
    (h : ∃ v ∈ xs, v ∉ vocab) :
    transformAll vocab xs = .error .unseenCategory := by
  induction xs with
  | nil => simp at h
  | cons v vs ih =>
    unfold transformAll
    by_cases hv : v ∈ vocab
    · rw [if_pos hv]
      rcases h with ⟨w, hw, hwv⟩
      rcases List.mem_cons.1 hw with rfl | hw'
      · exact absurd hv hwv
      · rw [ih ⟨w, hw', hwv⟩]
    · rw [if_neg hv]

theorem encodeCol_none (xs : List α) :
    encodeCol none xs = (np_unique xs, .ok (xs.map fun v => (np_unique xs).indexOf v)) := rfl

theorem encodeCol_some (vocab xs : List α) :
    encodeCol (some vocab) xs = (vocab, transformAll vocab xs) := rfl

theorem encodeCol_error_eq (fitted : Option (List α)) (xs v : List α) (e : MLError)
    (h : encodeCol fitted xs = (v, .error e)) : e = .unseenCategory := by
  cases fitted with
  | none =>
    rw [encodeCol_none] at h
    cases (Prod.mk.injEq _ _ _ _ ▸ h).2
  | some vocab =>
    unfold encodeCol at h
    have h2 := (Prod.mk.injEq _ _ _ _ ▸ h).2
    exact transformAll_error_eq vocab xs e h2

theorem encodeCol_ok_length (fitted : Option (List α)) (xs v : List α) (cs : List Nat)
    (h : encodeCol fitted xs = (v, .ok cs)) : cs.length = xs.length := by
  cases fitted with
  | none =>
    rw [encodeCol_none] at h
    have h2 := (Prod.mk.injEq _ _ _ _ ▸ h).2
    cases h2
    simp
  | some vocab =>
    unfold encodeCol at h
    have h2 := (Prod.mk.injEq _ _ _ _ ▸ h).2
    exact transformAll_length vocab xs cs h2

theorem encodeCol_idem (fitted : Option (List α)) (xs v : List α) (cs : List Nat)
    (h : encodeCol fitted xs = (v, .ok cs)) : encodeCol (some v) xs = (v, .ok cs) := by
  cases fitted with
  | none =>
    rw [encodeCol_none] at h
    injection h with h1 h2
    injection h2 with h2'
    subst h1
    subst h2'
    rw [encodeCol_some,
      transformAll_ok_of_subset _ xs (fun w hw => (np_unique_mem w xs).2 hw)]
  | some vocab =>
    rw [encodeCol_some] at h
    injection h with h1 h2
    subst h1
    rw [encodeCol_some, h2]

theorem encodeCol_unseen (V : List α) (xs : List α) (h : ∃ v ∈ xs, v ∉ V) :
    encodeCol (some V) xs = (V, .error .unseenCategory) := by
  rw [encodeCol_some, transformAll_error_of_unseen V xs h]

end EncoderLemmas

theorem buildFeatRows_length :
    ∀ (df : List Row) (c1 c2 c3 c4 : List Nat),
      c1.length = df.length → c2.length = df.length →
      c3.length = df.length → c4.length = df.length →
      (buildFeatRows df c1 c2 c3 c4).length = df.length := by
  intro df
  induction df with
  | nil =>
    intro c1 c2 c3 c4 h1 h2 h3 h4
    simp only [List.length_nil, List.length_eq_zero] at h1 h2 h3 h4
    subst h1; subst h2; subst h3; subst h4
    rfl
  | cons r rs ih =>
    intro c1 c2 c3 c4 h1 h2 h3 h4
    cases c1 with | nil => simp at h1 | cons a as' =>
    cases c2 with | nil => simp at h2 | cons b bs =>
    cases c3 with | nil => simp at h3 | cons c cs =>
    cases c4 with | nil => simp at h4 | cons d ds =>
    simp only [List.length_cons, Nat.succ.injEq] at h1 h2 h3 h4
    simp only [buildFeatRows, List.length_cons]
    rw [ih as' bs cs ds h1 h2 h3 h4]

/-! ## Lemmas about `prepare_features` -/

theorem prepare_features_error_eq (enc : Encoders) (df : List Row)
    (enc' : Encoders) (e : MLError)
    (h : prepare_features enc df = (enc', .error e)) : e = .unseenCategory := by
  unfold prepare_features at h
  rcases hc1 : encodeCol enc.search_term (df.map Row.search_term) with ⟨v1, r1⟩
  rw [hc1] at h
  cases r1 with
  | error e1 =>
    cases h
    exact encodeCol_error_eq _ _ _ _ hc1
  | ok c1 =>
    rcases hc2 : encodeCol enc.device_type (df.map Row.device_type) with ⟨v2, r2⟩
    rw [hc2] at h
    cases r2 with
    | error e2 =>
      cases h
      exact encodeCol_error_eq _ _ _ _ hc2
    | ok c2 =>
      rcases hc3 : encodeCol enc.browser (df.map Row.browser) with ⟨v3, r3⟩
      rw [hc3] at h
      cases r3 with
      | error e3 =>
        cases h
        exact encodeCol_error_eq _ _ _ _ hc3
      | ok c3 =>
        rcases hc4 : encodeCol enc.referrer (df.map Row.referrer) with ⟨v4, r4⟩
        rw [hc4] at h
        cases r4 with
        | error e4 =>
          cases h
          exact encodeCol_error_eq _ _ _ _ hc4
        | ok c4 => cases h

theorem prepare_features_ok (enc : Encoders) (df : List Row)
    (enc' : Encoders) (X : List FeatRow)
    (h : prepare_features enc df = (enc', .ok X)) :
    ∃ v1 v2 v3 v4 c1 c2 c3 c4,
      encodeCol enc.search_term (df.map Row.search_term) = (v1, .ok c1)
      ∧ encodeCol enc.device_type (df.map Row.device_type) = (v2, .ok c2)
      ∧ encodeCol enc.browser (df.map Row.browser) = (v3, .ok c3)
      ∧ encodeCol enc.referrer (df.map Row.referrer) = (v4, .ok c4)
      ∧ enc' = ⟨some v1, some v2, some v3, some v4⟩
      ∧ X = buildFeatRows df c1 c2 c3 c4 := by
  unfold prepare_features at h
  rcases hc1 : encodeCol enc.search_term (df.map Row.search_term) with ⟨v1, r1⟩
  rw [hc1] at h
  cases r1 with
  | error e1 => cases h
  | ok c1 =>
    rcases hc2 : encodeCol enc.device_type (df.map Row.device_type) with ⟨v2, r2⟩
    rw [hc2] at h
    cases r2 with
    | error e2 => cases h
    | ok c2 =>
      rcases hc3 : encodeCol enc.browser (df.map Row.browser) with ⟨v3, r3⟩
      rw [hc3] at h
      cases r3 with
      | error e3 => cases h
      | ok c3 =>
        rcases hc4 : encodeCol enc.referrer (df.map Row.referrer) with ⟨v4, r4⟩
        rw [hc4] at h
        cases r4 with
        | error e4 => cases h
        | ok c4 =>
          cases h
          exact ⟨v1, v2, v3, v4, c1, c2, c3, c4, rfl, rfl, rfl, rfl, rfl, rfl⟩

theorem prepare_features_ok_length (enc : Encoders) (df : List Row)
    (enc' : Encoders) (X : List FeatRow)
    (h : prepare_features enc df = (enc', .ok X)) : X.length = df.length := by
  rcases prepare_features_ok enc df enc' X h with
    ⟨v1, v2, v3, v4, c1, c2, c3, c4, hc1, hc2, hc3, hc4, henc, hX⟩
  subst hX
  exact buildFeatRows_length df c1 c2 c3 c4
    ((encodeCol_ok_length _ _ _ _ hc1).trans (List.length_map _ _))
    ((encodeCol_ok_length _ _ _ _ hc2).trans (List.length_map _ _))
    ((encodeCol_ok_length _ _ _ _ hc3).trans (List.length_map _ _))
    ((encodeCol_ok_length _ _ _ _ hc4).trans (List.length_map _ _))

theorem prepare_features_idem (enc : Encoders) (df : List Row)
    (enc' : Encoders) (X : List FeatRow)
    (h : prepare_features enc df = (enc', .ok X)) :
    prepare_features enc' df = (enc', .ok X) := by
  rcases prepare_features_ok enc df enc' X h with
    ⟨v1, v2, v3, v4, c1, c2, c3, c4, hc1, hc2, hc3, hc4, henc, hX⟩
  subst henc
  subst hX
  unfold prepare_features
  simp only [encodeCol_idem _ _ _ _ hc1, encodeCol_idem _ _ _ _ hc2,
    encodeCol_idem _ _ _ _ hc3, encodeCol_idem _ _ _ _ hc4]

theorem prepare_features_unseen (enc : Encoders) (df : List Row)
    (h : (∃ V, enc.search_term = some V ∧ ∃ r ∈ df, r.search_term ∉ V)
       ∨ (∃ V, enc.device_type = some V ∧ ∃ r ∈ df, r.device_type ∉ V)
       ∨ (∃ V, enc.browser = some V ∧ ∃ r ∈ df, r.browser ∉ V)
       ∨ (∃ V, enc.referrer = some V ∧ ∃ r ∈ df, r.referrer ∉ V)) :
    (prepare_features enc df).2 = .error .unseenCategory := by
  rcases hp : prepare_features enc df with ⟨enc', r⟩
  cases r with
  | error e =>
    have := prepare_features_error_eq enc df enc' e hp
    subst this
    rfl
  | ok X =>
    exfalso
    rcases prepare_features_ok enc df enc' X hp with
      ⟨v1, v2, v3, v4, c1, c2, c3, c4, hc1, hc2, hc3, hc4, henc, hX⟩
    rcases h with ⟨V, hV, r, hr, hrv⟩ | ⟨V, hV, r, hr, hrv⟩ |
      ⟨V, hV, r, hr, hrv⟩ | ⟨V, hV, r, hr, hrv⟩
    · rw [hV, encodeCol_unseen V _ ⟨r.search_term, List.mem_map_of_mem _ hr, hrv⟩] at hc1
      cases (Prod.mk.injEq _ _ _ _ ▸ hc1).2
    · rw [hV, encodeCol_unseen V _ ⟨r.device_type, List.mem_map_of_mem _ hr, hrv⟩] at hc2
      cases (Prod.mk.injEq _ _ _ _ ▸ hc2).2
    · rw [hV, encodeCol_unseen V _ ⟨r.browser, List.mem_map_of_mem _ hr, hrv⟩] at hc3
      cases (Prod.mk.injEq _ _ _ _ ▸ hc3).2
    · rw [hV, encodeCol_unseen V _ ⟨r.referrer, List.mem_map_of_mem _ hr, hrv⟩] at hc4
      cases (Prod.mk.injEq _ _ _ _ ▸ hc4).2

/-! ## Lemmas about `train`, `predict` and the split -/

/-- The encoders produced by fitting all four columns on `df`. -/
def fittedOf (df : List Row) : Encoders :=
⟨some (np_unique (df.map Row.search_term)),
 some (np_unique (df.map Row.device_type)),
 some (np_unique (df.map Row.browser)),
 some (np_unique (df.map Row.referrer))⟩

/-- The feature table produced by a fit-everything pass on `df`. -/
def fresh_features (df : List Row) : List FeatRow :=
buildFeatRows df
  ((df.map Row.search_term).map fun v => (np_unique (df.map Row.search_term)).indexOf v)
  ((df.map Row.device_type).map fun v => (np_unique (df.map Row.device_type)).indexOf v)
  ((df.map Row.browser).map fun v => (np_unique (df.map Row.browser)).indexOf v)
  ((df.map Row.referrer).map fun v => (np_unique (df.map Row.referrer)).indexOf v)

theorem prepare_features_fresh (df : List Row) :
    prepare_features initEncoders df = (fittedOf df, .ok (fresh_features df)) := rfl

theorem train_test_split_error (X : List FeatRow) (y : List Bool)
    (h : y.length - n_test_of y.length = 0) :
    train_test_split X y = .error .valueError := by
  unfold train_test_split
  rw [if_pos h]

theorem train_test_split_ok (X : List FeatRow) (y : List Bool)
    (h : y.length - n_test_of y.length ≠ 0) :
    train_test_split X y
      = .ok ((X.drop (n_test_of y.length), X.take (n_test_of y.length)),
             (y.drop (n_test_of y.length), y.take (n_test_of y.length))) := by
  unfold train_test_split
  rw [if_neg h]

theorem train_prepare_error (m : ClickPredictionModel) (df : List Row) (enc' : Encoders) (e : MLError)
    (h : prepare_features m.label_encoders df = (enc', .error e)) :
    train m df = ({ m with label_encoders := enc' }, .error e) := by
  unfold train
  rw [h]

theorem predict_prepare_error (m : ClickPredictionModel) (df : List Row) (enc' : Encoders) (e : MLError)
    (h : prepare_features m.label_encoders df = (enc', .error e)) :
    predict m df = ({ m with label_encoders := enc' }, .error e) := by
  unfold predict
  rw [h]

theorem train_split_error (m : ClickPredictionModel) (df : List Row) (enc' : Encoders) (X : List FeatRow)
    (hp : prepare_features m.label_encoders df = (enc', .ok X))
    (hs : train_test_split X (df.map Row.clicked) = .error .valueError) :
    train m df = ({ m with label_encoders := enc' }, .error .valueError) := by
  unfold train
  simp only [hp, hs]

theorem train_ok_eq (m : ClickPredictionModel) (df : List Row) (enc' : Encoders) (X Xtr Xte : List FeatRow)
    (ytr yte : List Bool)
    (hp : prepare_features m.label_encoders df = (enc', .ok X))
    (hs : train_test_split X (df.map Row.clicked) = .ok ((Xtr, Xte), (ytr, yte))) :
    train m df
      = ({ label_encoders := enc', model := some ⟨Xtr, ytr⟩,
           feature_importance := some (importance_table ytr) },
         .ok (Forest.score ⟨Xtr, ytr⟩ Xte yte)) := by
  unfold train
  simp only [hp, hs]

theorem train_ok_inv (m : ClickPredictionModel) (df : List Row) (m₁ : ClickPredictionModel) (s : ℚ)
    (h : train m df = (m₁, .ok s)) :
    ∃ enc' X Xtr Xte ytr yte,
      prepare_features m.label_encoders df = (enc', .ok X)
      ∧ train_test_split X (df.map Row.clicked) = .ok ((Xtr, Xte), (ytr, yte))
      ∧ m₁ = { label_encoders := enc', model := some ⟨Xtr, ytr⟩,
               feature_importance := some (importance_table ytr) }
      ∧ s = Forest.score ⟨Xtr, ytr⟩ Xte yte := by
  unfold train at h
  rcases hp : prepare_features m.label_encoders df with ⟨enc', r⟩
  cases r with
  | error e =>
    simp only [hp] at h
    injection h with h1 h2
    cases h2
  | ok X =>
    simp only [hp] at h
    cases hs : train_test_split X (df.map Row.clicked) with
    | error e =>
      simp only [hs] at h
      injection h with h1 h2
      cases h2
    | ok res =>
      rcases res with ⟨⟨Xtr, Xte⟩, ⟨ytr, yte⟩⟩
      simp only [hs] at h
      injection h with h1 h2
      injection h2 with h2'
      exact ⟨enc', X, Xtr, Xte, ytr, yte, rfl, hs, h1.symm, h2'.symm⟩

/-! ## Lemmas about the modelled classifier's score -/

theorem majority_of_all (X : List FeatRow) (y : List Bool) (b : Bool)
    (hne : y ≠ []) (hall : ∀ x ∈ y, x = b) :
    Forest.majority ⟨X, y⟩ = b := by
  unfold Forest.majority
  have hlen : 0 < y.length := List.length_pos.2 hne
  cases b with
  | false =>
    have hz : y.count true = 0 := by
      rw [List.count_eq_zero]
      intro hmem
      exact Bool.true_eq_false.mp (hall true hmem)
    simp [hz]
  | true =>
    have hz : y.count true = y.length := by
      rw [List.count_eq_length]
      intro x hmem
      exact (hall x hmem).symm
    simp only [hz]
    rw [decide_eq_true_eq]
    omega

theorem score_all_same (f : Forest) (Xte : List FeatRow) (yte : List Bool)
    (hlen : yte.length ≤ Xte.length) (hne : yte ≠ [])
    (hall : ∀ x ∈ yte, x = f.majority) :
    Forest.score f Xte yte = 1 := by
  unfold Forest.score
  have hcount : (Xte.zip yte).countP (fun p => f.predictOne p.1 == p.2)
      = (Xte.zip yte).length := by
    rw [List.countP_eq_length]
    intro p hp
    have := (List.of_mem_zip hp).2
    have hb : p.2 = f.majority := hall p.2 this
    simp [Forest.predictOne, hb]
  rw [hcount, List.length_zip, Nat.min_eq_right hlen]
  have hz : (yte.length : ℚ) ≠ 0 := by
    rw [Nat.cast_ne_zero]
    intro h0
    exact hne (List.length_eq_zero.1 h0)
  exact div_self hz

theorem single_class_of_all (y : List Bool) (b : Bool) (hall : ∀ x ∈ y, x = b) :
    single_class y = true := by
  unfold single_class
  cases b with
  | false =>
    have hnot : ¬(true ∈ y) := fun hmem => by
      have := hall true hmem
      cases this
    simp [hnot]
  | true =>
    have hnot : ¬(false ∈ y) := fun hmem => by
      have := hall false hmem
      cases this
    simp [hnot]

/-- A fresh `train` on a non-degenerate-size single-class table succeeds
and returns the degenerate accuracy `1`, with an all-zero importance
vector. -/
theorem train_fresh_single_class (df : List Row) (h2 : 2 ≤ df.length) (b : Bool)
    (hall : ∀ r ∈ df, r.clicked = b) :
    (train initModel df).2 = .ok 1
    ∧ ∃ l, (train initModel df).1.feature_importance = some l
        ∧ l = importance_table ((df.map Row.clicked).drop (n_test_of df.length))
        ∧ feature_importances ((df.map Row.clicked).drop (n_test_of df.length))
            = List.replicate 9 0 := by
  have hXlen : (fresh_features df).length = df.length := by
    unfold fresh_features
    refine buildFeatRows_length df _ _ _ _ ?_ ?_ ?_ ?_ <;>
      rw [List.length_map, List.length_map]
  have hylen : (df.map Row.clicked).length = df.length := List.length_map _ _
  have hk1 : 1 ≤ n_test_of df.length := by
    unfold n_test_of
    omega
  have hsplit_ne : (df.map Row.clicked).length - n_test_of (df.map Row.clicked).length ≠ 0 := by
    rw [hylen]
    unfold n_test_of
    omega
  have hs := train_test_split_ok (fresh_features df) (df.map Row.clicked) hsplit_ne
  rw [hylen] at hs
  have htr := train_ok_eq initModel df (fittedOf df) (fresh_features df) _ _ _ _
    (prepare_features_fresh df) hs
  have hally : ∀ x ∈ df.map Row.clicked, x = b := by
    intro x hx
    rcases List.mem_map.1 hx with ⟨r, hr, rfl⟩
    exact hall r hr
  have hytr_all : ∀ x ∈ (df.map Row.clicked).drop (n_test_of df.length), x = b :=
    fun x hx => hally x (List.drop_subset _ _ hx)
  have hyte_all : ∀ x ∈ (df.map Row.clicked).take (n_test_of df.length), x = b :=
    fun x hx => hally x (List.take_subset _ _ hx)
  have hytr_ne : (df.map Row.clicked).drop (n_test_of df.length) ≠ [] := by
    intro hnil
    have := congrArg List.length hnil
    rw [List.length_drop, hylen] at this
    simp only [List.length_nil] at this
    unfold n_test_of at this
    omega
  have hyte_ne : (df.map Row.clicked).take (n_test_of df.length) ≠ [] := by
    intro hnil
    have := congrArg List.length hnil
    rw [List.length_take, hylen] at this
    simp only [List.length_nil] at this
    unfold n_test_of at this
    omega
  have hmaj : Forest.majority ⟨(fresh_features df).drop (n_test_of df.length),
      (df.map Row.clicked).drop (n_test_of df.length)⟩ = b :=
    majority_of_all _ _ b hytr_ne hytr_all
  have hscore : Forest.score
      ⟨(fresh_features df).drop (n_test_of df.length),
       (df.map Row.clicked).drop (n_test_of df.length)⟩
      ((fresh_features df).take (n_test_of df.length))
      ((df.map Row.clicked).take (n_test_of df.length)) = 1 := by
    refine score_all_same _ _ _ ?_ hyte_ne ?_
    · rw [List.length_take, List.length_take, hXlen, hylen]
    · intro x hx
      rw [hmaj]
      exact hyte_all x hx
  constructor
  · rw [htr, hscore]
  · refine ⟨importance_table ((df.map Row.clicked).drop (n_test_of df.length)),
      by rw [htr], rfl, ?_⟩
    unfold feature_importances
    rw [single_class_of_all _ b hytr_all, if_pos rfl]

/-! ## Lemmas about the feature-importance table -/

theorem zip_mem_left {α β : Type} : ∀ (as' : List α) (bs : List β),
    as'.length = bs.length → ∀ a ∈ as', ∃ b, (a, b) ∈ as'.zip bs := by
  intro as'
  induction as' with
  | nil => intro bs h a ha; simp at ha
  | cons x xs ih =>
    intro bs h a ha
    cases bs with
    | nil => simp at h
    | cons y ys =>
      rcases List.mem_cons.1 ha with rfl | ha'
      · exact ⟨y, by simp [List.zip_cons_cons]⟩
      · rcases ih ys (by simpa using h) a ha' with ⟨b, hb⟩
        exact ⟨b, by simp [List.zip_cons_cons, List.mem_cons_of_mem _ hb]⟩

theorem feature_importances_length (ytr : List Bool) :
    (feature_importances ytr).length = 9 := by
  unfold feature_importances
  split <;> simp

theorem feature_importances_nonneg (ytr : List Bool) :
    ∀ q ∈ feature_importances ytr, 0 ≤ q := by
  unfold feature_importances
  split
  · intro q hq
    rw [List.eq_of_mem_replicate hq]
  · intro q hq
    rw [List.eq_of_mem_replicate hq]
    norm_num

theorem feature_importances_sum (ytr : List Bool) :
    ((feature_importances ytr).sum = 1 ∧ single_class ytr = false)
    ∨ (feature_importances ytr = List.replicate 9 0 ∧ single_class ytr = true) := by
  unfold feature_importances
  cases h : single_class ytr with
  | false =>
    left
    rw [if_neg (by simp [h])]
    constructor
    · rw [List.sum_replicate]
      norm_num
    · rfl
  | true =>
    right
    rw [if_pos rfl]
    exact ⟨rfl, rfl⟩

theorem importance_table_perm (ytr : List Bool) :
    (importance_table ytr).Perm (feature_names.zip (feature_importances ytr)) :=
List.perm_insertionSort impOrder _

theorem importance_table_props (ytr : List Bool) :
    (importance_table ytr).length = 9
    ∧ (∀ f ∈ feature_names, ∃ q, (f, q) ∈ importance_table ytr)
    ∧ (∀ p ∈ importance_table ytr, 0 ≤ p.2)
    ∧ List.Sorted impOrder (importance_table ytr)
    ∧ (((importance_table ytr).map Prod.snd).sum = 1
        ∨ ∀ p ∈ importance_table ytr, p.2 = 0) := by
  have hperm := importance_table_perm ytr
  have hlen9 : (feature_names.zip (feature_importances ytr)).length = 9 := by
    rw [List.length_zip, feature_importances_length]
    rfl
  have hsnd : (feature_names.zip (feature_importances ytr)).map Prod.snd
      = feature_importances ytr :=
    List.map_snd_zip _ _ (by rw [feature_importances_length]; rfl)
  refine ⟨hperm.length_eq.trans hlen9, ?_, ?_, List.sorted_insertionSort impOrder _, ?_⟩
  · intro f hf
    rcases zip_mem_left feature_names (feature_importances ytr)
      (by rw [feature_importances_length]; rfl) f hf with ⟨q, hq⟩
    exact ⟨q, hperm.mem_iff.2 hq⟩
  · intro p hp
    have hz := hperm.mem_iff.1 hp
    have := (List.of_mem_zip hz).2
    exact feature_importances_nonneg ytr _ this
  · rcases feature_importances_sum ytr with ⟨hsum, _⟩ | ⟨hrep, _⟩
    · left
      rw [(hperm.map Prod.snd).sum_eq, hsnd, hsum]
    · right
      intro p hp
      have hz := hperm.mem_iff.1 hp
      have h2 := (List.of_mem_zip hz).2
      rw [hrep] at h2
      exact List.eq_of_mem_replicate h2

/-! ## Claim theorems about the model -/

/-- Claim C9 (implicit frame effect): `predict` on a freshly constructed
model — encoders unfitted, forest unfitted — fails with the not-fitted
error, yet the returned model state has all four categorical encoders
fitted to exactly the values observed in the input table: the failed
call does not leave the encoder state untouched. -/
theorem claim9_failed_predict_mutates_encoders (df : List Row) :
    (predict initModel df).2 = .error .notFitted
    ∧ (predict initModel df).1.label_encoders = fittedOf df
    ∧ (∀ v : String, v ∈ np_unique (df.map Row.search_term) ↔ v ∈ df.map Row.search_term)
    ∧ (∀ v : Device, v ∈ np_unique (df.map Row.device_type) ↔ v ∈ df.map Row.device_type)
    ∧ (∀ v : Browser, v ∈ np_unique (df.map Row.browser) ↔ v ∈ df.map Row.browser)
    ∧ (∀ v : Referrer, v ∈ np_unique (df.map Row.referrer) ↔ v ∈ df.map Row.referrer) :=
⟨rfl, rfl, fun v => np_unique_mem v _, fun v => np_unique_mem v _,
 fun v => np_unique_mem v _, fun v => np_unique_mem v _⟩

/-- Claim C4 (amended): `predict` on a model with no fitted forest never
returns probabilities; on a freshly constructed model it fails with the
not-fitted error.  (As stated, the claim is false: after a *failed*
`train` or `predict` has fitted the encoders, a later `predict` can fail
with the unseen-category error instead — see the counterexample.) -/
theorem claim4_amended_untrained_predict (m : ClickPredictionModel) (df : List Row)
    (hm : m.model = none) :
    (∀ ps, (predict m df).2 ≠ .ok ps)
    ∧ (∀ df' : List Row, (predict initModel df').2 = .error .notFitted) := by
  constructor
  · intro ps hps
    unfold predict at hps
    rcases hq : prepare_features m.label_encoders df with ⟨enc', r⟩
    cases r with
    | error e =>
      simp only [hq] at hps
      cases hps
    | ok X =>
      simp only [hq, hm] at hps
      cases hps
  · intro df'
    rfl

/-- Witness for C4 (amended) on a fresh model and the empty table. -/
theorem claim4_witness :
    initModel.model = none
    ∧ (∀ ps, (predict initModel ([] : List Row)).2 ≠ .ok ps) :=
⟨rfl, (claim4_amended_untrained_predict initModel [] rfl).1⟩

/-- A concrete probe row used by the counterexample to C4. -/
def rowX : Row :=
⟨0, 0, false, 0, "laptop", Device.desktop, Browser.chrome, Referrer.direct, false⟩

/-- A second probe row whose search term the first row's table never
contained. -/
def rowX2 : Row :=
⟨0, 0, false, 0, "dress", Device.mobile, Browser.safari, Referrer.email, false⟩

/-- Counterexample to C4 as stated: a first `predict` on a fresh model
fails with the not-fitted error but fits the encoders; no train has
succeeded and the forest is still unfitted, yet a second `predict` on a
table with a new search term fails with the unseen-category error, not
the model-not-trained error. -/
theorem claim4_counterexample :
    (predict initModel [rowX]).2 = .error .notFitted
    ∧ ((predict initModel [rowX]).1).model = none
    ∧ (predict (predict initModel [rowX]).1 [rowX2]).2 = .error .unseenCategory
    ∧ (predict (predict initModel [rowX]).1 [rowX2]).2 ≠ .error .notFitted := by
  refine ⟨rfl, rfl, rfl, ?_⟩
  intro hcontra
  have h0 : (predict (predict initModel [rowX]).1 [rowX2]).2
      = .error .unseenCategory := rfl
  rw [h0] at hcontra
  exact MLError.noConfusion (Except.error.inj hcontra)

/-- Claim C6: once a categorical encoder is fitted, encoding a table that
contains a value outside that encoder's fitted vocabulary fails with the
unseen-category error — in `prepare_features` itself, in `predict`, and
in a retrain that reuses the encoder — instead of silently mapping the
value to a default code. -/
theorem claim6_unseen_category_fails (enc : Encoders) (df : List Row) (m : ClickPredictionModel)
    (hm : m.label_encoders = enc)
    (h : (∃ V, enc.search_term = some V ∧ ∃ r ∈ df, r.search_term ∉ V)
       ∨ (∃ V, enc.device_type = some V ∧ ∃ r ∈ df, r.device_type ∉ V)
       ∨ (∃ V, enc.browser = some V ∧ ∃ r ∈ df, r.browser ∉ V)
       ∨ (∃ V, enc.referrer = some V ∧ ∃ r ∈ df, r.referrer ∉ V)) :
    (prepare_features enc df).2 = .error .unseenCategory
    ∧ (predict m df).2 = .error .unseenCategory
    ∧ (train m df).2 = .error .unseenCategory := by
  have hp := prepare_features_unseen enc df h
  subst hm
  rcases hq : prepare_features m.label_encoders df with ⟨enc', r⟩
  rw [hq] at hp
  have hr : r = .error .unseenCategory := hp
  subst hr
  refine ⟨hp, ?_, ?_⟩
  · unfold predict
    simp only [hq]
  · unfold train
    simp only [hq]

/-- Concrete encoder state and probe row for the C6 witness: the
search-term encoder was fitted on a table containing only "laptop", and
the new table contains the unseen term "dress". -/
def encW6 : Encoders := ⟨some ["laptop"], none, none, none⟩

def mW6 : ClickPredictionModel := ⟨encW6, none, none⟩

def rowW6 : Row :=
⟨0, 0, false, 0, "dress", Device.desktop, Browser.chrome, Referrer.direct, false⟩

/-- Witness for C6 at a concrete fitted vocabulary and unseen value. -/
theorem claim6_witness :
    (prepare_features encW6 [rowW6]).2 = .error .unseenCategory
    ∧ (predict mW6 [rowW6]).2 = .error .unseenCategory
    ∧ (train mW6 [rowW6]).2 = .error .unseenCategory :=
claim6_unseen_category_fails encW6 [rowW6] mW6 rfl
  (Or.inl ⟨["laptop"], rfl, rowW6, List.mem_singleton_self _, by decide⟩)

/-- Claim C5 (amended): training on an empty (or one-row) table fails —
with the splitter's value error, not a dedicated degenerate-training-set
error — but training on a larger table whose `clicked` column is
single-class does *not* fail: it silently returns the degenerate
held-out accuracy `1`.  (As stated, the claim is false — see the
counterexample.) -/
theorem claim5_amended_degenerate_training (df : List Row) :
    (df.length ≤ 1 → (train initModel df).2 = .error .valueError)
    ∧ (2 ≤ df.length → ∀ b : Bool, (∀ r ∈ df, r.clicked = b) →
        (train initModel df).2 = .ok 1) := by
  constructor
  · intro hle
    have hy : (df.map Row.clicked).length = df.length := List.length_map _ _
    have hz : (df.map Row.clicked).length - n_test_of (df.map Row.clicked).length = 0 := by
      rw [hy]
      unfold n_test_of
      omega
    rw [train_split_error initModel df (fittedOf df) (fresh_features df)
      (prepare_features_fresh df)
      (train_test_split_error (fresh_features df) (df.map Row.clicked) hz)]
  · intro h2 b hall
    exact (train_fresh_single_class df h2 b hall).1

/-- A concrete five-row table whose label column is single-class. -/
def tblC5 : List Row :=
[⟨0, 100, false, 1, "laptop", Device.desktop, Browser.chrome, Referrer.direct, false⟩,
 ⟨3600, 200, true, 2, "dress", Device.mobile, Browser.firefox, Referrer.search, false⟩,
 ⟨7200, 300, false, 0, "shampoo", Device.tablet, Browser.safari, Referrer.social, false⟩,
 ⟨10800, 50, true, 3, "laptop", Device.desktop, Browser.edge, Referrer.email, false⟩,
 ⟨14400, 80, false, 1, "jeans", Device.mobile, Browser.chrome, Referrer.direct, false⟩]

/-- Counterexample to C5 as stated: on a five-row table whose `clicked`
column contains only one class, `train` does not fail — it silently
returns the degenerate accuracy `1`. -/
theorem claim5_counterexample :
    tblC5.length = 5
    ∧ (∀ r ∈ tblC5, r.clicked = false)
    ∧ (train initModel tblC5).2 = .ok 1 :=
⟨rfl, by decide, (train_fresh_single_class tblC5 (by decide) false (by decide)).1⟩

/-- A concrete two-row single-class table for the C5 witness. -/
def tblW5 : List Row :=
[⟨0, 10, false, 1, "laptop", Device.desktop, Browser.chrome, Referrer.direct, true⟩,
 ⟨3600, 20, true, 0, "dress", Device.mobile, Browser.safari, Referrer.email, true⟩]

/-- Witness for C5 (amended) on the empty table and on a concrete
two-row single-class table. -/
theorem claim5_witness :
    ([] : List Row).length ≤ 1
    ∧ (train initModel ([] : List Row)).2 = .error .valueError
    ∧ 2 ≤ tblW5.length
    ∧ (train initModel tblW5).2 = .ok 1 :=
⟨by decide, (claim5_amended_degenerate_training []).1 (by decide),
 by decide, (claim5_amended_degenerate_training tblW5).2 (by decide) true (by decide)⟩

/-- Claim C7 (amended): after every successful `train`, the
feature-importance table has one row per feature (9 rows, one for each
feature name), every score is non-negative, the rows are sorted by
descending importance, and the scores sum to 1 — *except* that when
every fitted tree is a single root node (as happens when the training
labels are single-class) all scores are zero and the sum is 0 instead.
(The unconditional sum-to-1 of the claim as stated is false — see the
counterexample.) -/
theorem claim7_amended_importance_table (m : ClickPredictionModel) (df : List Row) (m₁ : ClickPredictionModel) (s : ℚ)
    (h : train m df = (m₁, .ok s)) :
    ∃ l, m₁.feature_importance = some l
      ∧ l.length = 9
      ∧ (∀ f ∈ feature_names, ∃ q, (f, q) ∈ l)
      ∧ (∀ p ∈ l, 0 ≤ p.2)
      ∧ List.Sorted impOrder l
      ∧ ((l.map Prod.snd).sum = 1 ∨ ∀ p ∈ l, p.2 = 0) := by
  rcases train_ok_inv m df m₁ s h with ⟨enc', X, Xtr, Xte, ytr, yte, hp, hs, hm₁, hsval⟩
  subst hm₁
  rcases importance_table_props ytr with ⟨h1, h2, h3, h4, h5⟩
  exact ⟨importance_table ytr, rfl, h1, h2, h3, h4, h5⟩

/-- A concrete five-row table with both label classes, for the C7 witness. -/
def tblW7 : List Row :=
[⟨0, 100, false, 1, "laptop", Device.desktop, Browser.chrome, Referrer.direct, false⟩,
 ⟨3600, 200, false, 2, "dress", Device.mobile, Browser.firefox, Referrer.search, true⟩,
 ⟨7200, 300, false, 0, "shampoo", Device.tablet, Browser.safari, Referrer.social, false⟩,
 ⟨10800, 50, false, 3, "yoga mat", Device.desktop, Browser.edge, Referrer.email, true⟩,
 ⟨14400, 80, true, 1, "jeans", Device.mobile, Browser.chrome, Referrer.direct, false⟩]

/-- The model state after a fresh `train` on `tblW7`. -/
def w7_model : ClickPredictionModel :=
⟨fittedOf tblW7,
 some ⟨(fresh_features tblW7).drop 1, (tblW7.map Row.clicked).drop 1⟩,
 some (importance_table ((tblW7.map Row.clicked).drop 1))⟩

/-- The held-out accuracy of a fresh `train` on `tblW7`. -/
def w7_score : ℚ :=
Forest.score ⟨(fresh_features tblW7).drop 1, (tblW7.map Row.clicked).drop 1⟩
  ((fresh_features tblW7).take 1) ((tblW7.map Row.clicked).take 1)

/-- Witness for C7 (amended) at a concrete successful training call. -/
theorem claim7_witness :
    ∃ l, w7_model.feature_importance = some l
      ∧ l.length = 9
      ∧ (∀ f ∈ feature_names, ∃ q, (f, q) ∈ l)
      ∧ (∀ p ∈ l, 0 ≤ p.2)
      ∧ List.Sorted impOrder l
      ∧ ((l.map Prod.snd).sum = 1 ∨ ∀ p ∈ l, p.2 = 0) :=
claim7_amended_importance_table initModel tblW7 w7_model w7_score
  (train_ok_eq initModel tblW7 (fittedOf tblW7) (fresh_features tblW7)
    ((fresh_features tblW7).drop 1) ((fresh_features tblW7).take 1)
    ((tblW7.map Row.clicked).drop 1) ((tblW7.map Row.clicked).take 1)
    (prepare_features_fresh tblW7)
    (train_test_split_ok (fresh_features tblW7) (tblW7.map Row.clicked) (by decide)))

/-- A concrete three-row single-class table for the C7 counterexample. -/
def tblC7 : List Row :=
[⟨0, 100, false, 1, "laptop", Device.desktop, Browser.chrome, Referrer.direct, true⟩,
 ⟨3600, 200, true, 2, "dress", Device.mobile, Browser.firefox, Referrer.search, true⟩,
 ⟨7200, 300, false, 0, "shampoo", Device.tablet, Browser.safari, Referrer.social, true⟩]

/-- Counterexample to C7 as stated: a successful `train` on a
single-class table produces a feature-importance table whose scores sum
to 0, not 1. -/
theorem claim7_counterexample :
    (train initModel tblC7).2 = .ok 1
    ∧ ∃ l, (train initModel tblC7).1.feature_importance = some l
        ∧ (l.map Prod.snd).sum = 0
        ∧ (l.map Prod.snd).sum ≠ 1 := by
  obtain ⟨hok, l, hfi, hl, hrep⟩ :=
    train_fresh_single_class tblC7 (by decide) true (by decide)
  have hperm := importance_table_perm ((tblC7.map Row.clicked).drop (n_test_of tblC7.length))
  have hsnd : ((feature_names.zip (feature_importances
      ((tblC7.map Row.clicked).drop (n_test_of tblC7.length)))).map Prod.snd)
      = feature_importances ((tblC7.map Row.clicked).drop (n_test_of tblC7.length)) :=
    List.map_snd_zip _ _ (by rw [feature_importances_length]; rfl)
  have hsum : (l.map Prod.snd).sum = 0 := by
    rw [hl, (hperm.map Prod.snd).sum_eq, hsnd, hrep, List.sum_replicate]
    simp
  exact ⟨hok, l, hfi, hsum, by rw [hsum]; norm_num⟩

/-- Claim C8: `train` splits the rows 80%/20% deterministically with the
fixed seed — the held-out slice has `ceil(n/5)` rows and the training
slice the remaining rows — and a second `train` on the same table,
reusing the now-fitted encoders, returns exactly the same held-out
accuracy. -/
theorem claim8_deterministic_retrain (m m₁ : ClickPredictionModel) (df : List Row) (s₁ : ℚ)
    (h : train m df = (m₁, .ok s₁)) :
    (train m₁ df).2 = .ok s₁
    ∧ (∀ (X : List FeatRow) (y : List Bool) Xtr Xte ytr yte,
        train_test_split X y = .ok ((Xtr, Xte), (ytr, yte)) →
        ytr = y.drop (n_test_of y.length) ∧ yte = y.take (n_test_of y.length)
        ∧ ytr.length = y.length - n_test_of y.length
        ∧ yte.length = n_test_of y.length
        ∧ n_test_of y.length = (y.length + 4) / 5) := by
  constructor
  · rcases train_ok_inv m df m₁ s₁ h with ⟨enc', X, Xtr, Xte, ytr, yte, hp, hs, hm₁, hsval⟩
    subst hm₁
    subst hsval
    have hp2 : prepare_features enc' df = (enc', .ok X) :=
      prepare_features_idem m.label_encoders df enc' X hp
    rw [train_ok_eq _ df enc' X Xtr Xte ytr yte hp2 hs]
  · intro X y Xtr Xte ytr yte hs
    unfold train_test_split at hs
    by_cases hz : y.length - n_test_of y.length = 0
    · rw [if_pos hz] at hs
      cases hs
    · rw [if_neg hz] at hs
      injection hs with hs'
      injection hs' with hXs hys
      injection hXs with hXtr hXte
      injection hys with hytr hyte
      have hkle : n_test_of y.length ≤ y.length := by omega
      refine ⟨hytr.symm, hyte.symm, ?_, ?_, rfl⟩
      · rw [← hytr, List.length_drop]
      · rw [← hyte, List.length_take]
        omega

/-- A concrete two-row table for the C8 witness. -/
def tblW8 : List Row :=
[⟨0, 10, false, 1, "laptop", Device.desktop, Browser.chrome, Referrer.direct, true⟩,
 ⟨3600, 20, true, 0, "dress", Device.mobile, Browser.safari, Referrer.email, false⟩]

/-- The model state after a fresh `train` on `tblW8`. -/
def w8_model : ClickPredictionModel :=
⟨fittedOf tblW8,
 some ⟨(fresh_features tblW8).drop 1, (tblW8.map Row.clicked).drop 1⟩,
 some (importance_table ((tblW8.map Row.clicked).drop 1))⟩

/-- The held-out accuracy of a fresh `train` on `tblW8`. -/
def w8_score : ℚ :=
Forest.score ⟨(fresh_features tblW8).drop 1, (tblW8.map Row.clicked).drop 1⟩
  ((fresh_features tblW8).take 1) ((tblW8.map Row.clicked).take 1)

/-- Witness for C8 at a concrete table: a first `train` succeeds with
accuracy `w8_score`, and retraining returns the same accuracy. -/
theorem claim8_witness : (train w8_model tblW8).2 = .ok w8_score :=
(claim8_deterministic_retrain initModel w8_model tblW8 w8_score
  (train_ok_eq initModel tblW8 (fittedOf tblW8) (fresh_features tblW8)
    ((fresh_features tblW8).drop 1) ((fresh_features tblW8).take 1)
    ((tblW8.map Row.clicked).drop 1) ((tblW8.map Row.clicked).take 1)
    (prepare_features_fresh tblW8)
    (train_test_split_ok (fresh_features tblW8) (tblW8.map Row.clicked) (by decide)))).1

end ClickTracker
